import Mathlib

/-!
Shallow embedding of the reactive layout-state engine of
`obsidian-fullwidth-table` (`src/main.ts`, class `TableMap`, lines 175-257).

Widths are modelled as rationals (`ℚ`): every arithmetic operation the code
performs (subtraction, halving) is exact on the values involved.  The JS
`Record<TableId, number>` objects are modelled as association lists with the
JS object semantics for string keys: assignment to an existing key updates it
in place, assignment to a fresh key appends it, and `Object.keys` returns the
keys in insertion order.  Registered listeners are identified by opaque
natural-number ids; firing an event is modelled as producing the list of
listener invocations, in the order the code's `for (const callback of ...)`
loop performs them.  A thrown `Error` is modelled as an `error` field in the
operation result; mutations performed before the throw persist in the result
state, exactly as they do in JS.  The line width, which the code reads from
the DOM (`document.querySelector('.cm-contentContainer')?.clientWidth`) at
every recomputation, is passed in as an `Option ℚ` environment value — one
fresh value per `calcLeftGap` call, indexed by a counter in the loop of
`setViewWidth`.
-/

/-- Alias for `type TableId = string` (main.ts line 4). -/
abbrev TableId := String

/-- One JS `Record<TableId, number>` field, as an insertion-ordered
association list. -/
abbrev WidthRecord := List (TableId × ℚ)

/-- Property read `record[key]`: `undefined` becomes `none`. -/
def recordGet : WidthRecord → TableId → Option ℚ
  | [], _ => none
  | p :: rest, k => if p.1 = k then some p.2 else recordGet rest k

/-- Property write `record[key] = v`: update the first matching key in
place, or append a fresh key at the end (JS insertion-order semantics). -/
def recordSet : WidthRecord → TableId → ℚ → WidthRecord
  | [], k, v => [(k, v)]
  | p :: rest, k, v => if p.1 = k then (k, v) :: rest else p :: recordSet rest k v

/-- The key list `Object.keys(record)`, in insertion order. -/
def recordKeys (r : WidthRecord) : List TableId := r.map (·.1)

/-- The three event kinds of `ChangeEventListeners` (main.ts lines 169-173). -/
inductive EventKind where
  | tableWrapperWidth
  | leftGap
  | viewWidth
deriving DecidableEq, Repr

/-- Mirror of `ChangeEventListeners` (main.ts lines 169-173): one array of callbacks
per event kind; callbacks are identified by opaque ids. -/
structure ChangeEventListeners where
  tableWrapperWidth : List Nat
  leftGap : List Nat
  viewWidth : List Nat
deriving DecidableEq, Repr

/-- One synchronous callback invocation: which callback was called with
which arguments. -/
inductive Invocation where
  | tableWrapperWidth (cb : Nat) (tableId : TableId) (width : ℚ)
  | leftGap (cb : Nat) (tableId : TableId) (gap : ℚ)
  | viewWidth (cb : Nat) (width : ℚ)
deriving DecidableEq, Repr

/-- The event kind a given invocation belongs to. -/
def Invocation.kind : Invocation → EventKind
  | .tableWrapperWidth .. => .tableWrapperWidth
  | .leftGap .. => .leftGap
  | .viewWidth .. => .viewWidth

/-- The `Error`s thrown by `TableMap.calcLeftGap` (main.ts lines 224-234). -/
inductive CalcError where
  | tableWrapperWidthNotFound (tableId : TableId)
  | viewWidthNotInitialized
  | lineWidthNotInitialized
deriving DecidableEq, Repr

/-- The mutable state of `class TableMap` (main.ts lines 175-187). -/
structure TableMap where
  viewWidth : Option ℚ
  tableWrapperWidth : WidthRecord
  leftGap : WidthRecord
  changeEventListeners : ChangeEventListeners
deriving DecidableEq, Repr

/-- The field initializers of `class TableMap`: everything starts empty. -/
def TableMap.initial : TableMap :=
  ⟨none, [], [], ⟨[], [], []⟩⟩

/-- Outcome of running one `TableMap` method: the state after the call (on
error, the mutations performed before the throw persist, as in JS), the
listener invocations performed, in order, and the error thrown, if any. -/
structure OpResult where
  state : TableMap
  calls : List Invocation
  error : Option CalcError
deriving DecidableEq, Repr

/-- The three-branch `newLeftGap` computation of `calcLeftGap`
(main.ts lines 236-243), verbatim. -/
def newLeftGapOf (tableWrapperWidth lineWidth viewWidth : ℚ) : ℚ :=
  if tableWrapperWidth < lineWidth then 0
  else if lineWidth < tableWrapperWidth ∧ tableWrapperWidth < viewWidth then
    (tableWrapperWidth - lineWidth) / 2
  else
    (viewWidth - lineWidth) / 2

/-- Mirror of `TableMap.calcLeftGap` (main.ts lines 222-249).  `lineWidthOpt` is the
value of `document.querySelector('.cm-contentContainer')?.clientWidth` at
this recomputation. -/
def calcLeftGap (lineWidthOpt : Option ℚ) (tableId : TableId) (s : TableMap) :
    OpResult :=
  match recordGet s.tableWrapperWidth tableId with
  | none => ⟨s, [], some (CalcError.tableWrapperWidthNotFound tableId)⟩
  | some tableWrapperWidth =>
    match s.viewWidth with
    | none => ⟨s, [], some CalcError.viewWidthNotInitialized⟩
    | some viewWidth =>
      match lineWidthOpt with
      | none => ⟨s, [], some CalcError.lineWidthNotInitialized⟩
      | some lineWidth =>
        let newLeftGap := newLeftGapOf tableWrapperWidth lineWidth viewWidth
        ⟨{ s with leftGap := recordSet s.leftGap tableId newLeftGap },
         s.changeEventListeners.leftGap.map
           (fun cb => Invocation.leftGap cb tableId newLeftGap),
         none⟩

/-- Mirror of `TableMap.setTableWrapperWidth` (main.ts lines 189-199). -/
def setTableWrapperWidth (lineWidthOpt : Option ℚ) (tableId : TableId)
    (width : ℚ) (s : TableMap) : OpResult :=
  if recordGet s.tableWrapperWidth tableId ≠ some width then
    let s1 := { s with
      tableWrapperWidth := recordSet s.tableWrapperWidth tableId width }
    let wrapperCalls := s1.changeEventListeners.tableWrapperWidth.map
      (fun cb => Invocation.tableWrapperWidth cb tableId width)
    let r := calcLeftGap lineWidthOpt tableId s1
    ⟨r.state, wrapperCalls ++ r.calls, r.error⟩
  else
    ⟨s, [], none⟩

/-- The `for (const tableId of Object.keys(this.leftGap))` loop of
`setViewWidth` (main.ts lines 207-209): run `calcLeftGap` on each id in
order; a thrown error aborts the remaining iterations but keeps the
mutations already made.  `env k` is the line width read from the DOM by the
`k`-th `calcLeftGap` call of this loop. -/
def runCalcLoop (env : Nat → Option ℚ) : Nat → List TableId → TableMap →
    OpResult
  | _, [], s => ⟨s, [], none⟩
  | k, tableId :: rest, s =>
    let r := calcLeftGap (env k) tableId s
    match r.error with
    | some e => ⟨r.state, r.calls, some e⟩
    | none =>
      let r2 := runCalcLoop env (k + 1) rest r.state
      ⟨r2.state, r.calls ++ r2.calls, r2.error⟩

/-- Mirror of `TableMap.setViewWidth` (main.ts lines 201-210). -/
def setViewWidth (env : Nat → Option ℚ) (width : ℚ) (s : TableMap) :
    OpResult :=
  let s1 := { s with viewWidth := some width }
  let viewCalls := s1.changeEventListeners.viewWidth.map
    (fun cb => Invocation.viewWidth cb width)
  let r := runCalcLoop env 0 (recordKeys s1.leftGap) s1
  ⟨r.state, viewCalls ++ r.calls, r.error⟩

/-- Mirror of `TableMap.addChangeEventListener` (main.ts lines 251-256): push the
callback onto the array for its event kind.  (The guard re-creating a
missing array is dead code: all three arrays are initialized.) -/
def addChangeEventListener (event : EventKind) (cb : Nat) (s : TableMap) :
    TableMap :=
  match event with
  | .tableWrapperWidth =>
    { s with changeEventListeners := { s.changeEventListeners with
        tableWrapperWidth := s.changeEventListeners.tableWrapperWidth ++ [cb] } }
  | .leftGap =>
    { s with changeEventListeners := { s.changeEventListeners with
        leftGap := s.changeEventListeners.leftGap ++ [cb] } }
  | .viewWidth =>
    { s with changeEventListeners := { s.changeEventListeners with
        viewWidth := s.changeEventListeners.viewWidth ++ [cb] } }

/-- One external call into the store, with the line-width environment the
DOM supplies during that call. -/
inductive Op where
  | setWrapper (lineWidthOpt : Option ℚ) (tableId : TableId) (width : ℚ)
  | setView (env : Nat → Option ℚ) (width : ℚ)
  | addListener (event : EventKind) (cb : Nat)

/-- Run one external call. -/
def runOp : Op → TableMap → OpResult
  | .setWrapper lineWidthOpt tableId width, s =>
    setTableWrapperWidth lineWidthOpt tableId width s
  | .setView env width, s => setViewWidth env width s
  | .addListener event cb, s => ⟨addChangeEventListener event cb s, [], none⟩

/-- Run a sequence of external calls, keeping the state each call leaves
behind (the host continues after a thrown error, as the adapter's observer
callbacks do). -/
def runTrace : List Op → TableMap → TableMap
  | [], s => s
  | op :: rest, s => runTrace rest (runOp op s).state

/-! ### Record lemmas -/

theorem recordGet_set_self (r : WidthRecord) (k : TableId) (v : ℚ) :
    recordGet (recordSet r k v) k = some v := by
  induction r with
  | nil => simp [recordSet, recordGet]
  | cons p rest ih =>
    by_cases h : p.1 = k
    · simp [recordSet, recordGet, h]
    · simp [recordSet, recordGet, h, ih]

theorem recordGet_set_ne (r : WidthRecord) (k k' : TableId) (v : ℚ)
    (h : k' ≠ k) : recordGet (recordSet r k v) k' = recordGet r k' := by
  have hk : ¬k = k' := fun hh => h hh.symm
  induction r with
  | nil => simp [recordSet, recordGet, hk]
  | cons p rest ih =>
    by_cases hp : p.1 = k
    · subst hp
      simp [recordSet, recordGet, hk]
    · simp [recordSet, recordGet, hp, ih]

theorem recordGet_set_cases (r : WidthRecord) (k k' : TableId) (v g : ℚ)
    (h : recordGet (recordSet r k v) k' = some g) :
    g = v ∨ recordGet r k' = some g := by
  by_cases hk : k' = k
  · subst hk
    rw [recordGet_set_self] at h
    exact Or.inl (Option.some.inj h).symm
  · rw [recordGet_set_ne r k k' v hk] at h
    exact Or.inr h

theorem recordGet_set_isSome (r : WidthRecord) (k k' : TableId) (v : ℚ)
    (h : (recordGet r k').isSome) :
    (recordGet (recordSet r k v) k').isSome := by
  by_cases hk : k' = k
  · subst hk; rw [recordGet_set_self]; rfl
  · rwa [recordGet_set_ne r k k' v hk]

theorem recordGet_isSome_of_mem_keys (r : WidthRecord) (k : TableId)
    (h : k ∈ recordKeys r) : (recordGet r k).isSome := by
  induction r with
  | nil => simp [recordKeys] at h
  | cons p rest ih =>
    by_cases hp : p.1 = k
    · simp [recordGet, hp]
    · simp [recordKeys] at h
      rcases h with h | h
      · exact absurd h.symm hp
      · simpa [recordGet, hp] using ih (by simpa [recordKeys] using h)

/-! ### Basic facts about `calcLeftGap` -/

theorem calcLeftGap_defined (s : TableMap) (tableId : TableId) (w l v : ℚ)
    (hw : recordGet s.tableWrapperWidth tableId = some w)
    (hv : s.viewWidth = some v) :
    calcLeftGap (some l) tableId s =
      ⟨{ s with leftGap := recordSet s.leftGap tableId (newLeftGapOf w l v) },
       s.changeEventListeners.leftGap.map
         (fun cb => Invocation.leftGap cb tableId (newLeftGapOf w l v)),
       none⟩ := by
  unfold calcLeftGap
  rw [hw, hv]

theorem calcLeftGap_err_state (lineWidthOpt : Option ℚ) (tableId : TableId)
    (s : TableMap) (h : (calcLeftGap lineWidthOpt tableId s).error.isSome) :
    (calcLeftGap lineWidthOpt tableId s).state = s ∧
      (calcLeftGap lineWidthOpt tableId s).calls = [] := by
  rcases hw : recordGet s.tableWrapperWidth tableId with _ | w
  · unfold calcLeftGap
    rw [hw]
    exact ⟨rfl, rfl⟩
  · rcases hv : s.viewWidth with _ | v
    · unfold calcLeftGap
      rw [hw, hv]
      exact ⟨rfl, rfl⟩
    · cases lineWidthOpt with
      | none =>
        unfold calcLeftGap
        rw [hw, hv]
        exact ⟨rfl, rfl⟩
      | some l =>
        rw [calcLeftGap_defined s tableId w l v hw hv] at h
        simp at h

theorem calcLeftGap_wrapper_fixed (lineWidthOpt : Option ℚ)
    (tableId : TableId) (s : TableMap) :
    (calcLeftGap lineWidthOpt tableId s).state.tableWrapperWidth =
        s.tableWrapperWidth ∧
      (calcLeftGap lineWidthOpt tableId s).state.viewWidth = s.viewWidth ∧
      (calcLeftGap lineWidthOpt tableId s).state.changeEventListeners =
        s.changeEventListeners := by
  rcases hw : recordGet s.tableWrapperWidth tableId with _ | w
  · unfold calcLeftGap
    rw [hw]
    exact ⟨rfl, rfl, rfl⟩
  · rcases hv : s.viewWidth with _ | v
    · unfold calcLeftGap
      rw [hw, hv]
      exact ⟨rfl, hv, rfl⟩
    · cases lineWidthOpt with
      | none =>
        unfold calcLeftGap
        rw [hw, hv]
        exact ⟨rfl, hv, rfl⟩
      | some l =>
        rw [calcLeftGap_defined s tableId w l v hw hv]
        exact ⟨rfl, hv, rfl⟩

theorem calcLeftGap_leftGap_ne (lineWidthOpt : Option ℚ)
    (tableId tableId' : TableId) (s : TableMap) (h : tableId' ≠ tableId) :
    recordGet (calcLeftGap lineWidthOpt tableId s).state.leftGap tableId' =
      recordGet s.leftGap tableId' := by
  rcases hw : recordGet s.tableWrapperWidth tableId with _ | w
  · unfold calcLeftGap
    rw [hw]
  · rcases hv : s.viewWidth with _ | v
    · unfold calcLeftGap
      rw [hw, hv]
    · cases lineWidthOpt with
      | none =>
        unfold calcLeftGap
        rw [hw, hv]
      | some l =>
        rw [calcLeftGap_defined s tableId w l v hw hv]
        exact recordGet_set_ne _ _ _ _ h

theorem calcLeftGap_calls_kind (lineWidthOpt : Option ℚ)
    (tableId : TableId) (s : TableMap) :
    ∀ c ∈ (calcLeftGap lineWidthOpt tableId s).calls,
      c.kind = EventKind.leftGap := by
  rcases hw : recordGet s.tableWrapperWidth tableId with _ | w
  · unfold calcLeftGap
    rw [hw]
    intro c hc
    simp at hc
  · rcases hv : s.viewWidth with _ | v
    · unfold calcLeftGap
      rw [hw, hv]
      intro c hc
      simp at hc
    · cases lineWidthOpt with
      | none =>
        unfold calcLeftGap
        rw [hw, hv]
        intro c hc
        simp at hc
      | some l =>
        rw [calcLeftGap_defined s tableId w l v hw hv]
        intro c hc
        simp at hc
        obtain ⟨cb, _, rfl⟩ := hc
        rfl

theorem calcLeftGap_leftGap_isSome (lineWidthOpt : Option ℚ)
    (tableId tableId' : TableId) (s : TableMap)
    (h : (recordGet s.leftGap tableId').isSome) :
    (recordGet (calcLeftGap lineWidthOpt tableId s).state.leftGap
      tableId').isSome := by
  rcases hw : recordGet s.tableWrapperWidth tableId with _ | w
  · unfold calcLeftGap
    rw [hw]
    exact h
  · rcases hv : s.viewWidth with _ | v
    · unfold calcLeftGap
      rw [hw, hv]
      exact h
    · cases lineWidthOpt with
      | none =>
        unfold calcLeftGap
        rw [hw, hv]
        exact h
      | some l =>
        rw [calcLeftGap_defined s tableId w l v hw hv]
        exact recordGet_set_isSome _ _ _ _ h

/-! ### Facts about the recomputation loop of `setViewWidth` -/

theorem runCalcLoop_fixed (env : Nat → Option ℚ) (ids : List TableId) :
    ∀ (k : Nat) (s : TableMap),
      (runCalcLoop env k ids s).state.tableWrapperWidth =
          s.tableWrapperWidth ∧
        (runCalcLoop env k ids s).state.viewWidth = s.viewWidth ∧
        (runCalcLoop env k ids s).state.changeEventListeners =
          s.changeEventListeners := by
  induction ids with
  | nil =>
    intro k s
    exact ⟨rfl, rfl, rfl⟩
  | cons tableId rest ih =>
    intro k s
    have hfix := calcLeftGap_wrapper_fixed (env k) tableId s
    simp only [runCalcLoop]
    rcases he : (calcLeftGap (env k) tableId s).error with _ | e
    · have hrest := ih (k + 1) (calcLeftGap (env k) tableId s).state
      exact ⟨hrest.1.trans hfix.1, hrest.2.1.trans hfix.2.1,
        hrest.2.2.trans hfix.2.2⟩
    · exact hfix

theorem runCalcLoop_leftGap_isSome (env : Nat → Option ℚ)
    (ids : List TableId) :
    ∀ (k : Nat) (s : TableMap) (tableId' : TableId),
      (recordGet s.leftGap tableId').isSome →
      (recordGet (runCalcLoop env k ids s).state.leftGap tableId').isSome := by
  induction ids with
  | nil =>
    intro k s tableId' h
    exact h
  | cons tableId rest ih =>
    intro k s tableId' h
    have hstep := calcLeftGap_leftGap_isSome (env k) tableId tableId' s h
    simp only [runCalcLoop]
    rcases he : (calcLeftGap (env k) tableId s).error with _ | e
    · exact ih (k + 1) (calcLeftGap (env k) tableId s).state tableId' hstep
    · exact hstep

theorem runCalcLoop_calls_kind (env : Nat → Option ℚ) (ids : List TableId) :
    ∀ (k : Nat) (s : TableMap),
      ∀ c ∈ (runCalcLoop env k ids s).calls, c.kind = EventKind.leftGap := by
  induction ids with
  | nil =>
    intro k s c hc
    simp [runCalcLoop] at hc
  | cons tableId rest ih =>
    intro k s c hc
    simp only [runCalcLoop] at hc
    rcases he : (calcLeftGap (env k) tableId s).error with _ | e
    · rw [he] at hc
      simp only [List.mem_append] at hc
      rcases hc with hc | hc
      · exact calcLeftGap_calls_kind (env k) tableId s c hc
      · exact ih (k + 1) (calcLeftGap (env k) tableId s).state c hc
    · rw [he] at hc
      exact calcLeftGap_calls_kind (env k) tableId s c hc

theorem runCalcLoop_covers (env : Nat → Option ℚ) (ids : List TableId) :
    ∀ (k : Nat) (s : TableMap),
      (∀ j, (env j).isSome) →
      (∀ tableId ∈ ids, (recordGet s.tableWrapperWidth tableId).isSome) →
      s.viewWidth.isSome →
      (runCalcLoop env k ids s).error = none ∧
        ∀ tableId ∈ ids,
          (recordGet (runCalcLoop env k ids s).state.leftGap tableId).isSome ∧
            ∀ cb ∈ s.changeEventListeners.leftGap,
              ∃ g, Invocation.leftGap cb tableId g ∈
                (runCalcLoop env k ids s).calls := by
  induction ids with
  | nil =>
    intro k s _ _ _
    exact ⟨rfl, by intro tableId h; simp at h⟩
  | cons tableId rest ih =>
    intro k s henv hw hv
    obtain ⟨l, hl⟩ := Option.isSome_iff_exists.mp (henv k)
    obtain ⟨w, hww⟩ := Option.isSome_iff_exists.mp
      (hw tableId (List.mem_cons_self tableId rest))
    obtain ⟨v, hvv⟩ := Option.isSome_iff_exists.mp hv
    have hcalc := calcLeftGap_defined s tableId w l v hww hvv
    have hl' : env k = some l := hl
    have hstep : calcLeftGap (env k) tableId s =
        ⟨{ s with leftGap :=
            recordSet s.leftGap tableId (newLeftGapOf w l v) },
         s.changeEventListeners.leftGap.map
           (fun cb => Invocation.leftGap cb tableId (newLeftGapOf w l v)),
         none⟩ := by rw [hl', hcalc]
    have hfix := calcLeftGap_wrapper_fixed (env k) tableId s
    have hrest := ih (k + 1) (calcLeftGap (env k) tableId s).state
      henv
      (by
        intro tableId' h'
        rw [hfix.1]
        exact hw tableId' (List.mem_cons_of_mem tableId h'))
      (by rw [hfix.2.1]; exact hv)
    simp only [runCalcLoop]
    rw [hstep]
    simp only [hstep] at hrest
    refine ⟨hrest.1, ?_⟩
    intro tableId' h'
    rcases List.mem_cons.mp h' with h' | h'
    · subst h'
      constructor
      · apply runCalcLoop_leftGap_isSome
        rw [recordGet_set_self]
        rfl
      · intro cb hcb
        refine ⟨newLeftGapOf w l v, ?_⟩
        apply List.mem_append_left
        exact List.mem_map.mpr ⟨cb, hcb, rfl⟩
    · have hcov := hrest.2 tableId' h'
      refine ⟨hcov.1, ?_⟩
      intro cb hcb
      obtain ⟨g, hg⟩ := hcov.2 cb hcb
      exact ⟨g, List.mem_append_right _ hg⟩

/-! ### The non-negativity invariant for stored left gaps -/

/-- Every stored left gap in the state is non-negative. -/
def GapsNonneg (s : TableMap) : Prop :=
  ∀ tableId g, recordGet s.leftGap tableId = some g → 0 ≤ g

theorem newLeftGapOf_nonneg (w l v : ℚ) (h : l ≤ v) :
    0 ≤ newLeftGapOf w l v := by
  unfold newLeftGapOf
  split_ifs with h1 h2
  · exact le_refl 0
  · obtain ⟨hlw, _⟩ := h2
    linarith
  · linarith

theorem calcLeftGap_gaps_nonneg (lineWidthOpt : Option ℚ)
    (tableId : TableId) (s : TableMap) (hg : GapsNonneg s)
    (hlv : ∀ l v, lineWidthOpt = some l → s.viewWidth = some v → l ≤ v) :
    GapsNonneg (calcLeftGap lineWidthOpt tableId s).state := by
  rcases hw : recordGet s.tableWrapperWidth tableId with _ | w
  · unfold calcLeftGap
    rw [hw]
    exact hg
  · rcases hv : s.viewWidth with _ | v
    · unfold calcLeftGap
      rw [hw, hv]
      exact hg
    · cases lineWidthOpt with
      | none =>
        unfold calcLeftGap
        rw [hw, hv]
        exact hg
      | some l =>
        rw [calcLeftGap_defined s tableId w l v hw hv]
        intro tableId' g hget
        rcases recordGet_set_cases _ _ _ _ _ hget with h | h
        · subst h
          exact newLeftGapOf_nonneg w l v (hlv l v rfl hv)
        · exact hg tableId' g h

theorem runCalcLoop_gaps_nonneg (env : Nat → Option ℚ)
    (ids : List TableId) :
    ∀ (k : Nat) (s : TableMap), GapsNonneg s →
      (∀ j l v, env j = some l → s.viewWidth = some v → l ≤ v) →
      GapsNonneg (runCalcLoop env k ids s).state := by
  induction ids with
  | nil =>
    intro k s hg _
    exact hg
  | cons tableId rest ih =>
    intro k s hg hlv
    have hstep := calcLeftGap_gaps_nonneg (env k) tableId s hg (hlv k)
    have hfix := calcLeftGap_wrapper_fixed (env k) tableId s
    simp only [runCalcLoop]
    rcases he : (calcLeftGap (env k) tableId s).error with _ | e
    · exact ih (k + 1) (calcLeftGap (env k) tableId s).state hstep
        (by intro j l v hj hv; exact hlv j l v hj (hfix.2.1.symm.trans hv))
    · exact hstep

/-- A call is safe when its width argument is non-negative and every line
width the environment can supply during the call is at most the view width
the recomputations will read (for `setWrapper` the stored view width, for
`setView` the width being set). -/
def opSafe (s : TableMap) : Op → Prop
  | .setWrapper lineWidthOpt _ width =>
    0 ≤ width ∧
      ∀ l v, lineWidthOpt = some l → s.viewWidth = some v → l ≤ v
  | .setView env width =>
    0 ≤ width ∧ ∀ j l, env j = some l → l ≤ width
  | .addListener _ _ => True

/-- Every call of the trace is safe in the state in which it runs. -/
def SafeTrace : TableMap → List Op → Prop
  | _, [] => True
  | s, op :: rest => opSafe s op ∧ SafeTrace (runOp op s).state rest

theorem runOp_gaps_nonneg (op : Op) (s : TableMap) (hg : GapsNonneg s)
    (hsafe : opSafe s op) : GapsNonneg (runOp op s).state := by
  cases op with
  | setWrapper lineWidthOpt tableId width =>
    show GapsNonneg (setTableWrapperWidth lineWidthOpt tableId width s).state
    unfold setTableWrapperWidth
    by_cases hch : recordGet s.tableWrapperWidth tableId ≠ some width
    · rw [if_pos hch]
      exact calcLeftGap_gaps_nonneg lineWidthOpt tableId _ hg hsafe.2
    · rw [if_neg hch]
      exact hg
  | setView env width =>
    show GapsNonneg (setViewWidth env width s).state
    unfold setViewWidth
    exact runCalcLoop_gaps_nonneg env _ 0
      { s with viewWidth := some width } hg
      (by
        intro j l v hj hv
        have : some width = some v := hv
        cases this
        exact hsafe.2 j l hj)
  | addListener event cb =>
    show GapsNonneg (addChangeEventListener event cb s)
    cases event <;> exact hg

theorem runTrace_gaps_nonneg (ops : List Op) :
    ∀ s : TableMap, GapsNonneg s → SafeTrace s ops →
      GapsNonneg (runTrace ops s) := by
  induction ops with
  | nil =>
    intro s hg _
    exact hg
  | cons op rest ih =>
    intro s hg hsafe
    exact ih (runOp op s).state (runOp_gaps_nonneg op s hg hsafe.1) hsafe.2

/-! ### Claim theorems -/

/-- Counterexample to claim C1: with `viewWidth = 100`, `lineWidth = 200` and
`wrapperWidth = 150` we have `wrapperWidth >= viewWidth`, yet the code
stores `0` (first branch, since `wrapperWidth < lineWidth`), not the
claimed `(viewWidth - lineWidth) / 2 = -50`. -/
theorem calcLeftGap_clamp_counterexample :
    (100 : ℚ) ≤ 150 ∧
      (calcLeftGap (some 200) "t"
        ⟨some 100, [("t", 150)], [], ⟨[], [0], []⟩⟩).error = none ∧
      recordGet (calcLeftGap (some 200) "t"
        ⟨some 100, [("t", 150)], [], ⟨[], [0], []⟩⟩).state.leftGap "t"
        = some 0 ∧
      (0 : ℚ) ≠ ((100 : ℚ) - 200) / 2 := by
  refine ⟨by norm_num, rfl, by decide, by norm_num⟩

/-- Claim C1 as amended: when `WrapperWidth[id] = w`, `ViewWidth = V` and
`LineWidth = L` are all defined, `calcLeftGap` succeeds, stores the new gap
and publishes it to every `leftGap` listener, where the gap is `0` when
`w < L`, `(w - L) / 2` when `L < w < V`, and `(V - L) / 2` otherwise — in
particular whenever `w >= V` *and* `w >= L` (when `w < L` the zero branch
wins even if `w >= V`). -/
theorem calcLeftGap_piecewise (s : TableMap) (tableId : TableId) (w l v : ℚ)
    (hw : recordGet s.tableWrapperWidth tableId = some w)
    (hv : s.viewWidth = some v) :
    (calcLeftGap (some l) tableId s).error = none ∧
      recordGet (calcLeftGap (some l) tableId s).state.leftGap tableId
        = some (newLeftGapOf w l v) ∧
      (calcLeftGap (some l) tableId s).calls
        = s.changeEventListeners.leftGap.map
            (fun cb => Invocation.leftGap cb tableId (newLeftGapOf w l v)) ∧
      (w < l → newLeftGapOf w l v = 0) ∧
      (l < w ∧ w < v → newLeftGapOf w l v = (w - l) / 2) ∧
      (¬w < l → ¬(l < w ∧ w < v) → newLeftGapOf w l v = (v - l) / 2) ∧
      (l ≤ w → v ≤ w → newLeftGapOf w l v = (v - l) / 2) := by
  rw [calcLeftGap_defined s tableId w l v hw hv]
  refine ⟨rfl, recordGet_set_self _ _ _, rfl, ?_, ?_, ?_, ?_⟩
  · intro h
    simp [newLeftGapOf, h]
  · intro h
    have hnl : ¬w < l := lt_asymm h.1
    simp [newLeftGapOf, hnl, h]
  · intro h1 h2
    simp [newLeftGapOf, h1, h2]
  · intro h1 h2
    have hnl : ¬w < l := not_lt.mpr h1
    have hnv : ¬(l < w ∧ w < v) := fun hc => absurd hc.2 (not_lt.mpr h2)
    simp [newLeftGapOf, hnl, hnv]

/-- Witness for the amended C1 at `w = 1400`, `L = 400`, `V = 1000`. -/
theorem calcLeftGap_piecewise_witness :
    (calcLeftGap (some 400) "t"
        ⟨some 1000, [("t", 1400)], [], ⟨[], [0], []⟩⟩).error = none ∧
      recordGet (calcLeftGap (some 400) "t"
        ⟨some 1000, [("t", 1400)], [], ⟨[], [0], []⟩⟩).state.leftGap "t"
        = some (newLeftGapOf 1400 400 1000) ∧
      newLeftGapOf 1400 400 1000 = ((1000 : ℚ) - 400) / 2 := by
  have h := calcLeftGap_piecewise
    ⟨some 1000, [("t", 1400)], [], ⟨[], [0], []⟩⟩ "t" 1400 400 1000 rfl rfl
  exact ⟨h.1, h.2.1, h.2.2.2.2.2.2 (by norm_num) (by norm_num)⟩

/-- Claim C3: the function `calcLeftGap` fails with an error — leaving the state untouched and
firing nothing, so no default such as zero is stored — whenever the wrapper
width, the view width or the line width is undefined; when all three are
defined, the error branch is unreachable. -/
theorem calcLeftGap_missing_dependency (s : TableMap)
    (lineWidthOpt : Option ℚ) (tableId : TableId) :
    ((recordGet s.tableWrapperWidth tableId = none ∨ s.viewWidth = none ∨
        lineWidthOpt = none) →
      (calcLeftGap lineWidthOpt tableId s).error.isSome ∧
        (calcLeftGap lineWidthOpt tableId s).state = s ∧
        (calcLeftGap lineWidthOpt tableId s).calls = []) ∧
      (∀ w v l, recordGet s.tableWrapperWidth tableId = some w →
        s.viewWidth = some v → lineWidthOpt = some l →
        (calcLeftGap lineWidthOpt tableId s).error = none) := by
  constructor
  · intro h
    rcases hw : recordGet s.tableWrapperWidth tableId with _ | w
    · unfold calcLeftGap
      rw [hw]
      exact ⟨rfl, rfl, rfl⟩
    · rcases hv : s.viewWidth with _ | v
      · unfold calcLeftGap
        rw [hw, hv]
        exact ⟨rfl, rfl, rfl⟩
      · cases lineWidthOpt with
        | none =>
          unfold calcLeftGap
          rw [hw, hv]
          exact ⟨rfl, rfl, rfl⟩
        | some l =>
          simp [hw, hv] at h
  · intro w v l hw hv hl
    subst hl
    rw [calcLeftGap_defined s tableId w l v hw hv]

/-- Witness for C3: on the initial store (nothing defined) the
recomputation for `"t"` errors and stores nothing; on a fully defined store
it does not error. -/
theorem calcLeftGap_missing_dependency_witness :
    ((calcLeftGap none "t" TableMap.initial).error.isSome ∧
        (calcLeftGap none "t" TableMap.initial).state = TableMap.initial ∧
        (calcLeftGap none "t" TableMap.initial).calls = []) ∧
      (calcLeftGap (some 400) "t"
        ⟨some 1000, [("t", 700)], [], ⟨[], [], []⟩⟩).error = none := by
  constructor
  · exact (calcLeftGap_missing_dependency TableMap.initial none "t").1
      (Or.inl rfl)
  · exact (calcLeftGap_missing_dependency
      ⟨some 1000, [("t", 700)], [], ⟨[], [], []⟩⟩ (some 400) "t").2
      700 1000 400 rfl rfl rfl

/-- Claim C6: a recomputation whose dependencies are all defined stores the new
gap and fires a `leftGap` event to every registered listener even when the
newly computed value coincides with the previously stored one — the last
hypothesis pins the previous stored value to exactly the value about to be
recomputed. -/
theorem calcLeftGap_republish_unconditional (s : TableMap)
    (tableId : TableId) (w l v : ℚ)
    (hw : recordGet s.tableWrapperWidth tableId = some w)
    (hv : s.viewWidth = some v)
    (_hprev : recordGet s.leftGap tableId = some (newLeftGapOf w l v)) :
    (calcLeftGap (some l) tableId s).error = none ∧
      recordGet (calcLeftGap (some l) tableId s).state.leftGap tableId
        = some (newLeftGapOf w l v) ∧
      (calcLeftGap (some l) tableId s).calls
        = s.changeEventListeners.leftGap.map
            (fun cb => Invocation.leftGap cb tableId (newLeftGapOf w l v)) := by
  rw [calcLeftGap_defined s tableId w l v hw hv]
  exact ⟨rfl, recordGet_set_self _ _ _, rfl⟩

/-- Witness for C6: the stored gap `150` is recomputed to the identical
`150`, and the registered listener `5` is still notified. -/
theorem calcLeftGap_republish_unconditional_witness :
    recordGet (⟨some 1000, [("t", 700)], [("t", 150)],
        ⟨[], [5], []⟩⟩ : TableMap).leftGap "t"
      = some (newLeftGapOf 700 400 1000) ∧
      (calcLeftGap (some 400) "t"
        ⟨some 1000, [("t", 700)], [("t", 150)], ⟨[], [5], []⟩⟩).calls
        = [Invocation.leftGap 5 "t" 150] := by
  have hgap : newLeftGapOf 700 400 1000 = 150 := by
    norm_num [newLeftGapOf]
  have hprev : recordGet (⟨some 1000, [("t", 700)], [("t", 150)],
      ⟨[], [5], []⟩⟩ : TableMap).leftGap "t"
      = some (newLeftGapOf 700 400 1000) := by
    simp [recordGet, hgap]
  have h := calcLeftGap_republish_unconditional
    ⟨some 1000, [("t", 700)], [("t", 150)], ⟨[], [5], []⟩⟩ "t" 700 400 1000
    rfl rfl hprev
  refine ⟨hprev, h.2.2.trans ?_⟩
  simp [hgap]

/-- Claim C9: at the boundary `wrapperWidth = lineWidth` (with
`lineWidth < viewWidth`) both strict comparisons fail and the clamped value
`(viewWidth - lineWidth) / 2` is stored and published. -/
theorem calcLeftGap_boundary_eq_line (s : TableMap) (tableId : TableId)
    (w l v : ℚ)
    (hw : recordGet s.tableWrapperWidth tableId = some w)
    (hv : s.viewWidth = some v) (hwl : w = l) (hlv : l < v) :
    ¬w < l ∧ ¬l < w ∧
      (calcLeftGap (some l) tableId s).error = none ∧
      recordGet (calcLeftGap (some l) tableId s).state.leftGap tableId
        = some ((v - l) / 2) ∧
      (calcLeftGap (some l) tableId s).calls
        = s.changeEventListeners.leftGap.map
            (fun cb => Invocation.leftGap cb tableId ((v - l) / 2)) := by
  subst hwl
  have hgap : newLeftGapOf w w v = (v - w) / 2 := by
    simp [newLeftGapOf]
  rw [calcLeftGap_defined s tableId w w v hw hv]
  refine ⟨lt_irrefl w, lt_irrefl w, rfl, ?_, ?_⟩
  · rw [recordGet_set_self, hgap]
  · rw [hgap]

/-- Witness for C9 at `w = L = 400`, `V = 1000`: the stored and published
gap is `(1000 - 400) / 2 = 300`. -/
theorem calcLeftGap_boundary_eq_line_witness :
    (calcLeftGap (some 400) "t"
        ⟨some 1000, [("t", 400)], [], ⟨[], [3], []⟩⟩).error = none ∧
      recordGet (calcLeftGap (some 400) "t"
        ⟨some 1000, [("t", 400)], [], ⟨[], [3], []⟩⟩).state.leftGap "t"
        = some (((1000 : ℚ) - 400) / 2) := by
  have h := calcLeftGap_boundary_eq_line
    ⟨some 1000, [("t", 400)], [], ⟨[], [3], []⟩⟩ "t" 400 400 1000
    rfl rfl rfl (by norm_num)
  exact ⟨h.2.2.1, h.2.2.2.1⟩

/-! ### Branch characterizations of `setTableWrapperWidth` -/

theorem setTableWrapperWidth_unchanged (lineWidthOpt : Option ℚ)
    (tableId : TableId) (width : ℚ) (s : TableMap)
    (h : recordGet s.tableWrapperWidth tableId = some width) :
    setTableWrapperWidth lineWidthOpt tableId width s = ⟨s, [], none⟩ := by
  unfold setTableWrapperWidth
  rw [if_neg (not_not_intro h)]

theorem setTableWrapperWidth_changed (lineWidthOpt : Option ℚ)
    (tableId : TableId) (width : ℚ) (s : TableMap)
    (hch : recordGet s.tableWrapperWidth tableId ≠ some width) :
    setTableWrapperWidth lineWidthOpt tableId width s =
      ⟨(calcLeftGap lineWidthOpt tableId
          { s with tableWrapperWidth :=
              recordSet s.tableWrapperWidth tableId width }).state,
       s.changeEventListeners.tableWrapperWidth.map
           (fun cb => Invocation.tableWrapperWidth cb tableId width)
         ++ (calcLeftGap lineWidthOpt tableId
              { s with tableWrapperWidth :=
                  recordSet s.tableWrapperWidth tableId width }).calls,
       (calcLeftGap lineWidthOpt tableId
          { s with tableWrapperWidth :=
              recordSet s.tableWrapperWidth tableId width }).error⟩ := by
  unfold setTableWrapperWidth
  rw [if_pos hch]

theorem setTableWrapperWidth_stores (lineWidthOpt : Option ℚ)
    (tableId : TableId) (width : ℚ) (s : TableMap) :
    recordGet (setTableWrapperWidth lineWidthOpt tableId width
      s).state.tableWrapperWidth tableId = some width := by
  by_cases hch : recordGet s.tableWrapperWidth tableId ≠ some width
  · rw [setTableWrapperWidth_changed lineWidthOpt tableId width s hch]
    show recordGet (calcLeftGap lineWidthOpt tableId
      _).state.tableWrapperWidth tableId = some width
    rw [(calcLeftGap_wrapper_fixed _ _ _).1]
    exact recordGet_set_self _ _ _
  · rw [setTableWrapperWidth_unchanged lineWidthOpt tableId width s
      (not_not.mp hch)]
    exact not_not.mp hch

/-- Claim C4: setting a wrapper width equal to the stored one is a no-op (no
state change, no event, no recomputation), so a second call with the same
width never fires again; setting a different (or first) width stores it,
fires exactly one `wrapperWidth` event broadcast — the `tableWrapperWidth`
listeners in order, followed only by `leftGap`-kind invocations — and then
recomputes the left gap for that id (storing the piecewise value when the
view width and line width are available). -/
theorem setTableWrapperWidth_change_detection (s : TableMap)
    (lineWidthOpt lineWidthOpt2 : Option ℚ) (tableId : TableId) (width : ℚ) :
    (recordGet s.tableWrapperWidth tableId = some width →
      setTableWrapperWidth lineWidthOpt tableId width s = ⟨s, [], none⟩) ∧
      (recordGet s.tableWrapperWidth tableId ≠ some width →
        recordGet (setTableWrapperWidth lineWidthOpt tableId width
            s).state.tableWrapperWidth tableId = some width ∧
          (∃ tail, (setTableWrapperWidth lineWidthOpt tableId width s).calls
              = s.changeEventListeners.tableWrapperWidth.map
                  (fun cb => Invocation.tableWrapperWidth cb tableId width)
                ++ tail ∧
              ∀ c ∈ tail, c.kind = EventKind.leftGap) ∧
          (∀ v l, s.viewWidth = some v → lineWidthOpt = some l →
            (setTableWrapperWidth lineWidthOpt tableId width s).error
                = none ∧
              recordGet (setTableWrapperWidth lineWidthOpt tableId width
                  s).state.leftGap tableId
                = some (newLeftGapOf width l v))) ∧
      setTableWrapperWidth lineWidthOpt2 tableId width
          (setTableWrapperWidth lineWidthOpt tableId width s).state
        = ⟨(setTableWrapperWidth lineWidthOpt tableId width s).state,
           [], none⟩ := by
  refine ⟨?_, ?_, ?_⟩
  · intro h
    exact setTableWrapperWidth_unchanged lineWidthOpt tableId width s h
  · intro hch
    refine ⟨setTableWrapperWidth_stores lineWidthOpt tableId width s,
      ?_, ?_⟩
    · rw [setTableWrapperWidth_changed lineWidthOpt tableId width s hch]
      exact ⟨(calcLeftGap lineWidthOpt tableId _).calls, rfl,
        calcLeftGap_calls_kind _ _ _⟩
    · intro v l hv hl
      subst hl
      rw [setTableWrapperWidth_changed (some l) tableId width s hch]
      have hcalc := calcLeftGap_defined
        { s with tableWrapperWidth :=
            recordSet s.tableWrapperWidth tableId width }
        tableId width l v (recordGet_set_self _ _ _) hv
      rw [hcalc]
      exact ⟨rfl, recordGet_set_self _ _ _⟩
  · exact setTableWrapperWidth_unchanged lineWidthOpt2 tableId width _
      (setTableWrapperWidth_stores lineWidthOpt tableId width s)

/-- Witness for C4: on a store with view width `1000`, a first call with
width `700` stores it and recomputes the gap; the immediately repeated
call is a silent no-op. -/
theorem setTableWrapperWidth_change_detection_witness :
    recordGet (setTableWrapperWidth (some 400) "t" 700
        ⟨some 1000, [], [], ⟨[2], [3], []⟩⟩).state.tableWrapperWidth "t"
      = some 700 ∧
      (setTableWrapperWidth (some 400) "t" 700
        ⟨some 1000, [], [], ⟨[2], [3], []⟩⟩).error = none ∧
      setTableWrapperWidth (some 400) "t" 700
          (setTableWrapperWidth (some 400) "t" 700
            ⟨some 1000, [], [], ⟨[2], [3], []⟩⟩).state
        = ⟨(setTableWrapperWidth (some 400) "t" 700
            ⟨some 1000, [], [], ⟨[2], [3], []⟩⟩).state, [], none⟩ := by
  have h := setTableWrapperWidth_change_detection
    ⟨some 1000, [], [], ⟨[2], [3], []⟩⟩ (some 400) (some 400) "t" 700
  have hch : recordGet (⟨some 1000, [], [],
      ⟨[2], [3], []⟩⟩ : TableMap).tableWrapperWidth "t" ≠ some 700 := by
    simp [recordGet]
  exact ⟨(h.2.1 hch).1, ((h.2.1 hch).2.2 1000 400 rfl rfl).1, h.2.2⟩

/-- Counterexample to claim C7: on the initial store, `setTableWrapperWidth` throws
(view width missing) yet leaves the wrapper width it stored before the
throw behind — the state after the failing call differs from the state
before it, so the failing call does not leave the store unchanged. -/
theorem setTableWrapperWidth_not_atomic :
    (setTableWrapperWidth (some 400) "t" 100 TableMap.initial).error
        = some CalcError.viewWidthNotInitialized ∧
      (setTableWrapperWidth (some 400) "t" 100 TableMap.initial).state
        ≠ TableMap.initial ∧
      recordGet (setTableWrapperWidth (some 400) "t" 100
        TableMap.initial).state.tableWrapperWidth "t" = some 100 := by
  refine ⟨rfl, ?_, rfl⟩
  intro h
  have h2 : recordGet (setTableWrapperWidth (some 400) "t" 100
      TableMap.initial).state.tableWrapperWidth "t" = some 100 := rfl
  rw [h] at h2
  simp [TableMap.initial, recordGet] at h2

/-- Claim C7 as amended: a set call runs its cascade synchronously to
completion unless an error propagates, and on error the store is *not*
rolled back: a failing `setTableWrapperWidth` keeps the freshly stored
wrapper width and its already-fired `wrapperWidth` events while writing no
left gap, and `setViewWidth` keeps the stored view width and its
`viewWidth` events even when a recomputation in its loop fails. -/
theorem setCall_no_rollback (s : TableMap) (lineWidthOpt : Option ℚ)
    (env : Nat → Option ℚ) (tableId : TableId) (width : ℚ)
    (hch : recordGet s.tableWrapperWidth tableId ≠ some width) :
    ((setTableWrapperWidth lineWidthOpt tableId width s).error.isSome →
      recordGet (setTableWrapperWidth lineWidthOpt tableId width
          s).state.tableWrapperWidth tableId = some width ∧
        (setTableWrapperWidth lineWidthOpt tableId width s).state.leftGap
          = s.leftGap ∧
        (setTableWrapperWidth lineWidthOpt tableId width s).calls
          = s.changeEventListeners.tableWrapperWidth.map
              (fun cb => Invocation.tableWrapperWidth cb tableId width)) ∧
      (setViewWidth env width s).state.viewWidth = some width ∧
      ∃ tail, (setViewWidth env width s).calls
        = s.changeEventListeners.viewWidth.map
            (fun cb => Invocation.viewWidth cb width) ++ tail := by
  refine ⟨?_, ?_, ?_⟩
  · intro herr
    rw [setTableWrapperWidth_changed lineWidthOpt tableId width s hch]
      at herr ⊢
    have hs := calcLeftGap_err_state lineWidthOpt tableId _ herr
    refine ⟨?_, ?_, ?_⟩
    · show recordGet (calcLeftGap lineWidthOpt tableId
        _).state.tableWrapperWidth tableId = some width
      rw [hs.1]
      exact recordGet_set_self _ _ _
    · show (calcLeftGap lineWidthOpt tableId _).state.leftGap = s.leftGap
      rw [hs.1]
    · show _ ++ (calcLeftGap lineWidthOpt tableId _).calls = _
      rw [hs.2, List.append_nil]
  · show (runCalcLoop env 0 _ _).state.viewWidth = some width
    rw [(runCalcLoop_fixed env _ 0 _).2.1]
  · exact ⟨(runCalcLoop env 0 (recordKeys s.leftGap)
      { s with viewWidth := some width }).calls, rfl⟩

/-- Witness for C7 (amended) on the initial store: the failing call stores
the width, writes no gap, and the `setViewWidth` part records the view
width. -/
theorem setCall_no_rollback_witness :
    recordGet (setTableWrapperWidth (some 400) "t" 100
        TableMap.initial).state.tableWrapperWidth "t" = some 100 ∧
      (setTableWrapperWidth (some 400) "t" 100
        TableMap.initial).state.leftGap = [] ∧
      (setViewWidth (fun _ => some 400) 100 TableMap.initial).state.viewWidth
        = some 100 := by
  have hch : recordGet TableMap.initial.tableWrapperWidth "t"
      ≠ some 100 := by
    simp [TableMap.initial, recordGet]
  have h := setCall_no_rollback TableMap.initial (some 400)
    (fun _ => some 400) "t" 100 hch
  have herr : (setTableWrapperWidth (some 400) "t" 100
      TableMap.initial).error.isSome := rfl
  exact ⟨(h.1 herr).1, (h.1 herr).2.1, h.2.1⟩

/-- Claim C10: a `setTableWrapperWidth` call for one id never changes the stored
wrapper width or left gap of a different id, and a `setViewWidth` call
never changes any stored wrapper width. -/
theorem setCalls_frame (s : TableMap) (lineWidthOpt : Option ℚ)
    (env : Nat → Option ℚ) (tableId tableId' : TableId) (width : ℚ)
    (h : tableId' ≠ tableId) :
    recordGet (setTableWrapperWidth lineWidthOpt tableId width
        s).state.tableWrapperWidth tableId'
      = recordGet s.tableWrapperWidth tableId' ∧
      recordGet (setTableWrapperWidth lineWidthOpt tableId width
          s).state.leftGap tableId'
        = recordGet s.leftGap tableId' ∧
      (setViewWidth env width s).state.tableWrapperWidth
        = s.tableWrapperWidth := by
  refine ⟨?_, ?_, ?_⟩
  · by_cases hch : recordGet s.tableWrapperWidth tableId ≠ some width
    · rw [setTableWrapperWidth_changed lineWidthOpt tableId width s hch]
      show recordGet (calcLeftGap lineWidthOpt tableId
        _).state.tableWrapperWidth tableId' = _
      rw [(calcLeftGap_wrapper_fixed _ _ _).1]
      exact recordGet_set_ne _ _ _ _ h
    · rw [setTableWrapperWidth_unchanged lineWidthOpt tableId width s
        (not_not.mp hch)]
  · by_cases hch : recordGet s.tableWrapperWidth tableId ≠ some width
    · rw [setTableWrapperWidth_changed lineWidthOpt tableId width s hch]
      exact calcLeftGap_leftGap_ne _ _ _ _ h
    · rw [setTableWrapperWidth_unchanged lineWidthOpt tableId width s
        (not_not.mp hch)]
  · show (runCalcLoop env 0 _ _).state.tableWrapperWidth = _
    rw [(runCalcLoop_fixed env _ 0 _).1]

/-- Witness for C10: updating `"t1"` leaves `"t2"`'s stored values
untouched, and a view resize leaves the wrapper widths untouched. -/
theorem setCalls_frame_witness :
    recordGet (setTableWrapperWidth (some 400) "t1" 700
        ⟨some 1000, [("t2", 500)], [("t2", 50)],
          ⟨[], [], []⟩⟩).state.tableWrapperWidth "t2" = some 500 ∧
      recordGet (setTableWrapperWidth (some 400) "t1" 700
          ⟨some 1000, [("t2", 500)], [("t2", 50)],
            ⟨[], [], []⟩⟩).state.leftGap "t2" = some 50 ∧
      (setViewWidth (fun _ => some 400) 1200
          ⟨some 1000, [("t2", 500)], [("t2", 50)],
            ⟨[], [], []⟩⟩).state.tableWrapperWidth = [("t2", 500)] := by
  have h := setCalls_frame
    ⟨some 1000, [("t2", 500)], [("t2", 50)], ⟨[], [], []⟩⟩ (some 400)
    (fun _ => some 400) "t1" "t2" 700 (by decide)
  refine ⟨h.1.trans ?_, h.2.1.trans ?_, h.2.2⟩
  · rfl
  · rfl

theorem setViewWidth_eq (env : Nat → Option ℚ) (width : ℚ) (s : TableMap) :
    setViewWidth env width s =
      ⟨(runCalcLoop env 0 (recordKeys s.leftGap)
          { s with viewWidth := some width }).state,
       s.changeEventListeners.viewWidth.map
           (fun cb => Invocation.viewWidth cb width)
         ++ (runCalcLoop env 0 (recordKeys s.leftGap)
              { s with viewWidth := some width }).calls,
       (runCalcLoop env 0 (recordKeys s.leftGap)
          { s with viewWidth := some width }).error⟩ := rfl

/-- Counterexample to claim C2: an entity whose WrapperWidth has been recorded but
whose first recomputation failed (view width was not yet set) has no
stored LeftGap entry; a subsequent successful `setViewWidth` iterates
`Object.keys(this.leftGap)` and therefore performs *no* recomputation and
fires *no* `leftGap` event for that tracked entity, although a `leftGap`
listener is registered. -/
theorem setViewWidth_skips_gapless_entity :
    recordGet (setTableWrapperWidth none "t" 100
        (addChangeEventListener EventKind.leftGap 0
          TableMap.initial)).state.tableWrapperWidth "t" = some 100 ∧
      (setViewWidth (fun _ => some 400) 1000
        (setTableWrapperWidth none "t" 100
          (addChangeEventListener EventKind.leftGap 0
            TableMap.initial)).state).error = none ∧
      (setViewWidth (fun _ => some 400) 1000
        (setTableWrapperWidth none "t" 100
          (addChangeEventListener EventKind.leftGap 0
            TableMap.initial)).state).calls = [] ∧
      recordGet (setViewWidth (fun _ => some 400) 1000
        (setTableWrapperWidth none "t" 100
          (addChangeEventListener EventKind.leftGap 0
            TableMap.initial)).state).state.leftGap "t" = none :=
  ⟨rfl, rfl, rfl, rfl⟩

/-- Claim C2 as amended: `setViewWidth` always stores the width and always fires
the `viewWidth` event broadcast first (everything after it is
`leftGap`-kind); it then triggers a left-gap recomputation — hence a
`leftGap` event to every registered listener — for every entity *with a
stored LeftGap entry* (when the line width stays available and each such
entity has a wrapper width).  This set equals the set of all tracked
entities exactly when every tracked entity's earlier recomputation
succeeded; entities whose WrapperWidth is recorded but whose LeftGap was
never successfully computed are skipped. -/
theorem setViewWidth_propagation (s : TableMap) (env : Nat → Option ℚ)
    (width : ℚ) :
    (setViewWidth env width s).state.viewWidth = some width ∧
      (∃ tail, (setViewWidth env width s).calls
          = s.changeEventListeners.viewWidth.map
              (fun cb => Invocation.viewWidth cb width) ++ tail ∧
          ∀ c ∈ tail, c.kind = EventKind.leftGap) ∧
      ((∀ j, (env j).isSome) →
        (∀ tableId ∈ recordKeys s.leftGap,
          (recordGet s.tableWrapperWidth tableId).isSome) →
        (setViewWidth env width s).error = none ∧
          ∀ tableId ∈ recordKeys s.leftGap,
            (recordGet (setViewWidth env width s).state.leftGap
              tableId).isSome ∧
              ∀ cb ∈ s.changeEventListeners.leftGap,
                ∃ g, Invocation.leftGap cb tableId g
                  ∈ (setViewWidth env width s).calls) := by
  rw [setViewWidth_eq]
  refine ⟨?_, ?_, ?_⟩
  · show (runCalcLoop env 0 _ _).state.viewWidth = some width
    rw [(runCalcLoop_fixed env _ 0 _).2.1]
  · exact ⟨(runCalcLoop env 0 (recordKeys s.leftGap)
      { s with viewWidth := some width }).calls, rfl,
      runCalcLoop_calls_kind env _ 0 _⟩
  · intro henv hwr
    have hcov := runCalcLoop_covers env (recordKeys s.leftGap) 0
      { s with viewWidth := some width } henv hwr rfl
    refine ⟨hcov.1, ?_⟩
    intro tableId hid
    refine ⟨(hcov.2 tableId hid).1, ?_⟩
    intro cb hcb
    obtain ⟨g, hg⟩ := (hcov.2 tableId hid).2 cb hcb
    exact ⟨g, List.mem_append_right _ hg⟩

/-- Witness for the amended C2: on a store with one tracked entity `"t"`
(with a stored gap) and a `leftGap` listener, a view resize succeeds and
stores the new view width. -/
theorem setViewWidth_propagation_witness :
    (setViewWidth (fun _ => some 400) 1200
        ⟨some 500, [("t", 700)], [("t", 150)], ⟨[], [7], []⟩⟩).error
      = none ∧
      (setViewWidth (fun _ => some 400) 1200
        ⟨some 500, [("t", 700)], [("t", 150)],
          ⟨[], [7], []⟩⟩).state.viewWidth = some 1200 := by
  have h := setViewWidth_propagation
    ⟨some 500, [("t", 700)], [("t", 150)], ⟨[], [7], []⟩⟩
    (fun _ => some 400) 1200
  refine ⟨(h.2.2 (fun j => rfl) ?_).1, h.1⟩
  intro tableId hid
  have : tableId = "t" := by
    simpa [recordKeys] using hid
  subst this
  rfl

/-- Claim C8: any number of listeners may be registered per event kind
(registration appends to the kind's array), and every event broadcast
invokes exactly the registered listeners of that kind, in registration
order, each with the identical arguments: the `leftGap` broadcast of a
successful recomputation, the `viewWidth` broadcast of `setViewWidth` and
the `wrapperWidth` broadcast of a changing `setTableWrapperWidth` are each
the map of the invocation over the kind's listener array. -/
theorem addChangeEventListener_fanout (s : TableMap) (cb : Nat)
    (env : Nat → Option ℚ) (tableId : TableId) (w l v width : ℚ)
    (hw : recordGet s.tableWrapperWidth tableId = some w)
    (hv : s.viewWidth = some v)
    (hch : recordGet s.tableWrapperWidth tableId ≠ some width) :
    (addChangeEventListener EventKind.tableWrapperWidth cb
        s).changeEventListeners.tableWrapperWidth
      = s.changeEventListeners.tableWrapperWidth ++ [cb] ∧
      (addChangeEventListener EventKind.leftGap cb
          s).changeEventListeners.leftGap
        = s.changeEventListeners.leftGap ++ [cb] ∧
      (addChangeEventListener EventKind.viewWidth cb
          s).changeEventListeners.viewWidth
        = s.changeEventListeners.viewWidth ++ [cb] ∧
      (calcLeftGap (some l) tableId s).calls
        = s.changeEventListeners.leftGap.map
            (fun c => Invocation.leftGap c tableId (newLeftGapOf w l v)) ∧
      (∃ tail, (setViewWidth env width s).calls
          = s.changeEventListeners.viewWidth.map
              (fun c => Invocation.viewWidth c width) ++ tail) ∧
      (∃ tail, (setTableWrapperWidth (some l) tableId width s).calls
          = s.changeEventListeners.tableWrapperWidth.map
              (fun c => Invocation.tableWrapperWidth c tableId width)
            ++ tail) := by
  refine ⟨rfl, rfl, rfl, ?_, ?_, ?_⟩
  · rw [calcLeftGap_defined s tableId w l v hw hv]
  · exact ⟨(runCalcLoop env 0 (recordKeys s.leftGap)
      { s with viewWidth := some width }).calls, rfl⟩
  · rw [setTableWrapperWidth_changed (some l) tableId width s hch]
    exact ⟨(calcLeftGap (some l) tableId _).calls, rfl⟩

/-- Witness for C8: two `leftGap` listeners registered in order `0`, `1`
are both invoked by one recomputation, in registration order, with the
identical arguments `("t", 150)`. -/
theorem addChangeEventListener_fanout_witness :
    (addChangeEventListener EventKind.leftGap 1
        (addChangeEventListener EventKind.leftGap 0
          ⟨some 1000, [("t", 700)], [], ⟨[], [], []⟩⟩)).changeEventListeners.leftGap
      = [0, 1] ∧
      (calcLeftGap (some 400) "t"
        (addChangeEventListener EventKind.leftGap 1
          (addChangeEventListener EventKind.leftGap 0
            ⟨some 1000, [("t", 700)], [], ⟨[], [], []⟩⟩))).calls
        = [Invocation.leftGap 0 "t" 150, Invocation.leftGap 1 "t" 150] := by
  have h := addChangeEventListener_fanout
    (addChangeEventListener EventKind.leftGap 1
      (addChangeEventListener EventKind.leftGap 0
        ⟨some 1000, [("t", 700)], [], ⟨[], [], []⟩⟩))
    9 (fun _ => some 400) "t" 700 400 1000 900 rfl rfl (by simp [recordGet])
  have hgap : newLeftGapOf 700 400 1000 = 150 := by
    norm_num [newLeftGapOf]
  refine ⟨rfl, h.2.2.2.1.trans ?_⟩
  rw [hgap]
  rfl

/-- Counterexample to claim C5: with non-negative width arguments (view width `40`,
wrapper width `100`) and line width `50` supplied at recomputation time, a
reachable state stores the negative left gap `(40 - 50) / 2 = -5`: the
clamped branch goes negative whenever the line width exceeds the view
width. -/
theorem leftGap_negative_counterexample :
    (0 : ℚ) ≤ 40 ∧ (0 : ℚ) ≤ 100 ∧
      recordGet (runTrace
        [Op.setView (fun _ => some 50) 40, Op.setWrapper (some 50) "t" 100]
        TableMap.initial).leftGap "t" = some (-5) ∧
      (-5 : ℚ) < 0 := by
  have h1 : recordGet (runTrace
      [Op.setView (fun _ => some 50) 40, Op.setWrapper (some 50) "t" 100]
      TableMap.initial).leftGap "t" = some (newLeftGapOf 100 50 40) := rfl
  have h2 : newLeftGapOf 100 50 40 = -5 := by
    norm_num [newLeftGapOf]
  refine ⟨by norm_num, by norm_num, ?_, by norm_num⟩
  rw [h1, h2]

/-- Claim C5 as amended: every stored LeftGap in a state reachable from the
initial store is zero or positive, for all call sequences with
non-negative width arguments in which every line width supplied at a
recomputation is at most the view width in effect for that recomputation
(the bound `SafeTrace` requires).  Without that bound on the line width
the invariant fails, as the counterexample shows. -/
theorem runTrace_leftGap_nonneg (ops : List Op)
    (hsafe : SafeTrace TableMap.initial ops) :
    GapsNonneg (runTrace ops TableMap.initial) :=
  runTrace_gaps_nonneg ops TableMap.initial
    (by intro tableId g h; simp [TableMap.initial, recordGet] at h) hsafe

/-- Witness for the amended C5: the scenario trace `setViewWidth(1000)`
then `setWrapperWidth("t", 700)` with line width `400` is safe, and every
gap it stores is non-negative. -/
theorem runTrace_leftGap_nonneg_witness :
    SafeTrace TableMap.initial
      [Op.setView (fun _ => some 400) 1000,
       Op.setWrapper (some 400) "t" 700] ∧
      GapsNonneg (runTrace
        [Op.setView (fun _ => some 400) 1000,
         Op.setWrapper (some 400) "t" 700] TableMap.initial) := by
  have hsafe : SafeTrace TableMap.initial
      [Op.setView (fun _ => some 400) 1000,
       Op.setWrapper (some 400) "t" 700] := by
    refine ⟨⟨by norm_num, ?_⟩, ⟨⟨by norm_num, ?_⟩, trivial⟩⟩
    · intro j l hj
      have hj2 : some (400 : ℚ) = some l := hj
      cases hj2
      norm_num
    · intro l v hl hv
      have hl2 : some (400 : ℚ) = some l := hl
      cases hl2
      have hv2 : some (1000 : ℚ) = some v := hv
      cases hv2
      norm_num
  exact ⟨hsafe, runTrace_leftGap_nonneg _ hsafe⟩
